import Mathlib

/-!
Shallow embedding of the dobble scrobbler (src/main.rs), a last.fm
scrobbler that polls an MPRIS media player once per second, tracks the
currently playing song, scrobbles it after a 10-second threshold, and
keeps a retry queue of failed scrobbles that is flushed periodically.

Text (Rust `String` / `&str`) is modelled as `List Char`; durations
(`std::time::Duration`) as `Nat` nanoseconds; fallible operations as
`Except`; the remote scrobbling service's success or failure is an
explicit boolean input.
-/

namespace Dobble

deriving instance DecidableEq for Except

/-- `Duration` from the source, modelled as nanoseconds. -/
abbrev Duration := Nat

/-- `Duration::from_secs` (nanosecond granularity). -/
def fromSecs (n : Nat) : Duration := n * 1000000000

/-- `SCROBBLE_THRESHOLD`: amount of time to wait before scrobbling a track
(10 seconds). -/
def SCROBBLE_THRESHOLD : Duration := fromSecs 10

/-- The `Error` enum: `MissingMetadata(&'static str)`. -/
inductive Error where
  | MissingMetadata (field : String)
deriving DecidableEq, Repr

/-- The `Track` struct from the source. `track` is the song title field. -/
structure Track where
  artist : List Char
  track : List Char
  album : List Char
  scrobbled : Bool
  playing_for : Duration
deriving DecidableEq, Repr

/-- `impl PartialEq<Track> for Track`:
`self.track == other.track && self.artist == other.artist`. -/
def trackEqb (a b : Track) : Bool :=
  a.track == b.track && a.artist == b.artist

/-- The slice of `mpris::Metadata` read by the source: `title()`,
`artists()` and `album_name()`, each optionally absent. -/
structure Metadata where
  title : Option (List Char)
  artists : Option (List (List Char))
  album_name : Option (List Char)
deriving DecidableEq, Repr

/-- `Vec::join(", ")` on the artist list. -/
def joinComma (l : List (List Char)) : List Char :=
  List.intercalate [',', ' '] l

/-- `s.starts_with(pat)` for the list model of strings. -/
def listStartsWith : List Char → List Char → Bool
  | _, [] => true
  | [], _ :: _ => false
  | c :: cs, d :: ds => c == d && listStartsWith cs ds

/-- The `" - "` separator of the title-split fallback. -/
def sepDash : List Char := [' ', '-', ' ']

/-- The player-specific glyph `"▶ "` (U+25B6 followed by a space)
stripped from a derived artist. -/
def glyphChars : List Char := ['▶', ' ']

/-- `splitn(2, sep)` on a string, as the split at the first occurrence of
`sep`: `some (left, right)` when `sep` occurs, `none` otherwise. -/
def splitFirst (sep : List Char) : List Char → Option (List Char × List Char)
  | [] => none
  | c :: cs =>
    if listStartsWith (c :: cs) sep then
      some ([], (c :: cs).drop sep.length)
    else
      match splitFirst sep cs with
      | some (a, b) => some (c :: a, b)
      | none => none

/-- The glyph strip applied to the artist segment of the title split:
`v["▶ ".len()..]` when `v` starts with the glyph, `v` otherwise. -/
def glyphStrip (v : List Char) : List Char :=
  if listStartsWith v glyphChars then v.drop glyphChars.length else v

/-- `impl TryFrom<Metadata> for Track` (`Track::try_from`). -/
def Track.tryFrom (metadata : Metadata) : Except Error Track :=
  match metadata.title with
  | none => Except.error (Error.MissingMetadata "title")
  | some title =>
    let artist := match metadata.artists with
      | none => []
      | some v => joinComma v
    if artist = [] then
      match splitFirst sepDash title with
      | none => Except.error (Error.MissingMetadata "artist split from title")
      | some (a, rest) =>
        Except.ok { artist := glyphStrip a, track := rest,
                    album := metadata.album_name.getD [],
                    scrobbled := false, playing_for := 0 }
    else
      Except.ok { artist := artist, track := title,
                  album := metadata.album_name.getD [],
                  scrobbled := false, playing_for := 0 }

/-- A remote call issued against the scrobbling service. `announce` is
`scrobbler.now_playing`, `submit` is `scrobbler.scrobble` on one track,
`submitBatch` is `scrobbler.scrobble_batch`. -/
inductive Action where
  | announce (track : Track)
  | submit (track : Track)
  | submitBatch (tracks : List Track)
deriving DecidableEq, Repr

/-- `fn scrobble`: issues one `scrobbler.scrobble` call for the track and,
when the remote call fails, appends the track to `SCROBBLE_QUEUE`.
`remoteOk` is the outcome of the remote call. Returns the new queue and
the calls issued. -/
def scrobble (queue : List Track) (track : Track) (remoteOk : Bool) :
    List Track × List Action :=
  if remoteOk then
    (queue, [Action.submit track])
  else
    (queue ++ [track], [Action.submit track])

/-- `fn push_queued_scrobbles`: the periodic queue flush. When the queue is
non-empty, a single entry is pushed with `scrobbler.scrobble` and two or
more entries with one `scrobbler.scrobble_batch` call over the whole queue;
on success the queue is cleared, on failure it is left untouched.
`remoteOk` is the outcome of the remote call made (if any). -/
def push_queued_scrobbles (queue : List Track) (remoteOk : Bool) :
    List Track × List Action :=
  let should_run := !queue.isEmpty
  if should_run then
    if queue.length = 1 then
      match queue.get? 0 with
      | some track =>
        if remoteOk then ([], [Action.submit track])
        else (queue, [Action.submit track])
      | none => (queue, [])
    else
      if remoteOk then ([], [Action.submitBatch queue])
      else (queue, [Action.submitBatch queue])
  else
    (queue, [])

/-- `mpris::PlaybackStatus`. -/
inductive PlaybackStatus where
  | Playing
  | Paused
  | Stopped
deriving DecidableEq, Repr

/-- The external observations consumed by one iteration of the poll loop:
whether the player is still running, the playback-status query result
(`none` models `Err`), the metadata query result (`none` models `Err`),
the elapsed time since the previous iteration, and the outcome of the
remote scrobble call should one be made this tick. -/
structure TickInput where
  running : Bool
  status : Option PlaybackStatus
  metadata : Option Metadata
  elapsed : Duration
  scrobbleOk : Bool
deriving DecidableEq, Repr

/-- The mutable state of the poll loop: `tune` (the currently tracked
track, if any) and `SCROBBLE_QUEUE`. -/
structure LoopState where
  tune : Option Track
  queue : List Track
deriving DecidableEq, Repr

/-- One iteration of the `loop` in `fn main` (the queue-flush trigger
aside): clear `tune` if the player disconnected, dispatch on playback
status, derive a `Track` from the metadata, and update the tracked tune —
accumulating `playing_for` and scrobbling past the threshold for an equal
track, announcing now-playing and replacing `tune` otherwise. -/
def tick (s : LoopState) (i : TickInput) : LoopState × List Action :=
  let tune0 := if i.running then s.tune else none
  match i.status with
  | some PlaybackStatus.Playing =>
    match i.metadata with
    | none => ({ s with tune := tune0 }, [])
    | some m =>
      match Track.tryFrom m with
      | Except.error _ => ({ s with tune := tune0 }, [])
      | Except.ok currently_playing =>
        match tune0 with
        | some t =>
          if trackEqb t currently_playing then
            let t2 := { t with playing_for := t.playing_for + i.elapsed }
            if SCROBBLE_THRESHOLD ≤ t2.playing_for ∧ t2.scrobbled = false then
              let r := scrobble s.queue t2 i.scrobbleOk
              ({ tune := some { t2 with scrobbled := true }, queue := r.1 }, r.2)
            else
              ({ s with tune := some t2 }, [])
          else
            ({ s with tune := some currently_playing },
             [Action.announce currently_playing])
        | none =>
          ({ s with tune := some currently_playing },
           [Action.announce currently_playing])
  | some PlaybackStatus.Stopped => ({ s with tune := none }, [])
  | some PlaybackStatus.Paused => ({ s with tune := tune0 }, [])
  | none => ({ s with tune := tune0 }, [])

/-- Iterate `tick` over a list of observations, collecting the issued
remote calls. -/
def run (s : LoopState) : List TickInput → LoopState × List Action
  | [] => (s, [])
  | i :: is =>
    let r := tick s i
    let r2 := run r.1 is
    (r2.1, r.2 ++ r2.2)

/-- Whether a remote call reports a completed scrobble (single or batch). -/
def isSubmit : Action → Bool
  | Action.submit _ => true
  | Action.submitBatch _ => true
  | Action.announce _ => false

/-- Number of scrobble-submission calls in a list of issued calls. -/
def countSubmits (l : List Action) : Nat :=
  (l.filter isSubmit).length

/-- Total elapsed time over a list of tick observations. -/
def totalElapsed (l : List TickInput) : Duration :=
  (l.map TickInput.elapsed).sum

/-- A tick observation whose player is running, whose status is `Playing`,
and whose metadata derives to a track with the given artist and title
(hence one equal, under the source's `PartialEq`, to any tracked track
with those fields). -/
def ObservesEq (art tr : List Char) (i : TickInput) : Prop :=
  i.running = true ∧ i.status = some PlaybackStatus.Playing ∧
    ∃ m ct, i.metadata = some m ∧ Track.tryFrom m = Except.ok ct ∧
      ct.artist = art ∧ ct.track = tr

/-! ### Helper lemmas about the string split -/

lemma listStartsWith_self_append (p r : List Char) :
    listStartsWith (p ++ r) p = true := by
  induction p with
  | nil => cases r <;> rfl
  | cons c cs ih => simp [listStartsWith, ih]

lemma splitFirst_cons (sep : List Char) (c : Char) (cs : List Char) :
    splitFirst sep (c :: cs) =
      if listStartsWith (c :: cs) sep then
        some ([], (c :: cs).drop sep.length)
      else
        match splitFirst sep cs with
        | some (a, b) => some (c :: a, b)
        | none => none := rfl

lemma splitFirst_of_first_occurrence (sep : List Char) (hsep : sep ≠ []) :
    ∀ (x y : List Char),
      (∀ n, n < x.length →
        listStartsWith ((x ++ (sep ++ y)).drop n) sep = false) →
      splitFirst sep (x ++ (sep ++ y)) = some (x, y) := by
  intro x
  induction x with
  | nil =>
    intro y _
    cases sep with
    | nil => cases hsep rfl
    | cons c cs =>
      have h1 : listStartsWith (c :: (cs ++ y)) (c :: cs) = true :=
        listStartsWith_self_append (c :: cs) y
      have h2 : (c :: (cs ++ y)).drop (c :: cs).length = y :=
        List.drop_left (c :: cs) y
      show splitFirst (c :: cs) (c :: (cs ++ y)) = some ([], y)
      rw [splitFirst_cons, if_pos h1, h2]
  | cons c cs ih =>
    intro y h
    have h0 : ¬ listStartsWith (c :: (cs ++ (sep ++ y))) sep = true := by
      have := h 0 (Nat.succ_pos _)
      simp only [List.cons_append, List.drop_zero] at this
      simp [this]
    have hrec : splitFirst sep (cs ++ (sep ++ y)) = some (cs, y) := by
      apply ih
      intro n hn
      have := h (n + 1) (Nat.succ_lt_succ hn)
      simpa using this
    show splitFirst sep (c :: (cs ++ (sep ++ y))) = some (c :: cs, y)
    rw [splitFirst_cons, if_neg h0, hrec]

lemma splitFirst_eq_none_of_no_occurrence (sep : List Char) :
    ∀ (s : List Char),
      (∀ n, n < s.length → listStartsWith (s.drop n) sep = false) →
      splitFirst sep s = none := by
  intro s
  induction s with
  | nil => intro _; rfl
  | cons c cs ih =>
    intro h
    have h0 : ¬ listStartsWith (c :: cs) sep = true := by
      have := h 0 (Nat.succ_pos _)
      simp only [List.drop_zero] at this
      simp [this]
    have hrec : splitFirst sep cs = none := by
      apply ih
      intro n hn
      exact h (n + 1) (Nat.succ_lt_succ hn)
    rw [splitFirst_cons, if_neg h0, hrec]

/-! ### Helper lemmas about the poll-loop tick -/

lemma scrobble_calls (q : List Track) (t : Track) (ok : Bool) :
    (scrobble q t ok).2 = [Action.submit t] := by
  cases ok <;> rfl

/-- The tracked tune after an equal-track tick: `playing_for` advanced by
the elapsed time since the previous iteration. -/
def advance (t : Track) (e : Duration) : Track :=
  { t with playing_for := t.playing_for + e }

lemma tryFrom_scrobbled_false (m : Metadata) (ct : Track)
    (h : Track.tryFrom m = Except.ok ct) : ct.scrobbled = false := by
  rcases m with ⟨title, artists, album⟩
  unfold Track.tryFrom at h
  cases title with
  | none => simp at h
  | some s =>
    simp only at h
    split at h
    · split at h
      · simp at h
      · simp only [Except.ok.injEq] at h
        subst h
        rfl
    · simp only [Except.ok.injEq] at h
      subst h
      rfl

lemma advance_artist (t : Track) (e : Duration) :
    (advance t e).artist = t.artist := rfl

lemma advance_track (t : Track) (e : Duration) :
    (advance t e).track = t.track := rfl

lemma advance_scrobbled (t : Track) (e : Duration) :
    (advance t e).scrobbled = t.scrobbled := rfl

lemma advance_playing_for (t : Track) (e : Duration) :
    (advance t e).playing_for = t.playing_for + e := rfl

lemma tick_eq_accum (t : Track) (q : List Track) (i : TickInput)
    (hobs : ObservesEq t.artist t.track i)
    (hno : ¬ (SCROBBLE_THRESHOLD ≤ t.playing_for + i.elapsed ∧
              t.scrobbled = false)) :
    tick ⟨some t, q⟩ i = (⟨some (advance t i.elapsed), q⟩, []) := by
  obtain ⟨hr, hs, m, ct, hm, htf, ha, ht⟩ := hobs
  have heq : trackEqb t ct = true := by
    simp [trackEqb, ha, ht]
  simp [tick, advance, hr, hs, hm, htf, heq, hno]

lemma tick_fires (t : Track) (q : List Track) (i : TickInput)
    (hobs : ObservesEq t.artist t.track i)
    (ht : t.scrobbled = false)
    (hth : SCROBBLE_THRESHOLD ≤ t.playing_for + i.elapsed) :
    tick ⟨some t, q⟩ i =
      (⟨some { advance t i.elapsed with scrobbled := true },
        (scrobble q (advance t i.elapsed) i.scrobbleOk).1⟩,
       [Action.submit (advance t i.elapsed)]) := by
  obtain ⟨hr, hs, m, ct, hm, htf, ha, htr⟩ := hobs
  have heq : trackEqb t ct = true := by
    simp [trackEqb, ha, htr]
  simp [tick, advance, hr, hs, hm, htf, heq, ht, hth, scrobble_calls]

lemma run_no_submit_of_scrobbled (L : List TickInput) :
    ∀ (t : Track) (q : List Track), t.scrobbled = true →
      (∀ i ∈ L, ObservesEq t.artist t.track i) →
      countSubmits (run ⟨some t, q⟩ L).2 = 0 := by
  induction L with
  | nil =>
    intro t q _ _
    simp [run, countSubmits]
  | cons i is ih =>
    intro t q ht hL
    have hobs := hL i (List.mem_cons_self i is)
    have hstep := tick_eq_accum t q i hobs (by simp [ht])
    have htail : ∀ j ∈ is,
        ObservesEq (advance t i.elapsed).artist (advance t i.elapsed).track
          j := by
      intro j hj
      rw [advance_artist, advance_track]
      exact hL j (List.mem_cons_of_mem _ hj)
    have hrest := ih (advance t i.elapsed) q
      (by rw [advance_scrobbled]; exact ht) htail
    simp [run, hstep, countSubmits] at hrest ⊢
    exact hrest

lemma run_submit_count_of_unscrobbled (L : List TickInput) :
    ∀ (t : Track) (q : List Track), t.scrobbled = false →
      (∀ i ∈ L, ObservesEq t.artist t.track i) →
      countSubmits (run ⟨some t, q⟩ L).2 =
        if SCROBBLE_THRESHOLD ≤ t.playing_for + totalElapsed L ∧ L ≠ []
        then 1 else 0 := by
  induction L with
  | nil =>
    intro t q _ _
    simp [run, countSubmits]
  | cons i is ih =>
    intro t q ht hL
    have hobs := hL i (List.mem_cons_self i is)
    have htail0 : ∀ j ∈ is, ObservesEq t.artist t.track j := by
      intro j hj
      exact hL j (List.mem_cons_of_mem _ hj)
    by_cases hth : SCROBBLE_THRESHOLD ≤ t.playing_for + i.elapsed
    · have hstep := tick_fires t q i hobs ht hth
      have htail : ∀ j ∈ is,
          ObservesEq ({ advance t i.elapsed with scrobbled := true }).artist
            ({ advance t i.elapsed with scrobbled := true }).track j := by
        intro j hj
        exact htail0 j hj
      have hrest := run_no_submit_of_scrobbled is
        { advance t i.elapsed with scrobbled := true }
        (scrobble q (advance t i.elapsed) i.scrobbleOk).1
        rfl htail
      have hcond : SCROBBLE_THRESHOLD ≤ t.playing_for + totalElapsed (i :: is)
          ∧ (i :: is) ≠ [] := by
        refine ⟨?_, by simp⟩
        simp only [totalElapsed, List.map_cons, List.sum_cons]
        exact le_trans hth (Nat.add_le_add_left (Nat.le_add_right _ _) _)
      rw [if_pos hcond]
      simp [run, hstep, countSubmits, isSubmit] at hrest ⊢
      exact hrest
    · have hstep := tick_eq_accum t q i hobs (by intro hc; exact hth hc.1)
      have htail : ∀ j ∈ is,
          ObservesEq (advance t i.elapsed).artist (advance t i.elapsed).track
            j := by
        intro j hj
        rw [advance_artist, advance_track]
        exact htail0 j hj
      have hrest := ih (advance t i.elapsed) q
        (by rw [advance_scrobbled]; exact ht) htail
      simp only [run, hstep, List.nil_append]
      rw [hrest, advance_playing_for]
      simp only [totalElapsed, List.map_cons, List.sum_cons]
      rcases is with _ | ⟨j, js⟩
      · simp only [totalElapsed, List.map_nil, List.sum_nil] at hth ⊢
        rw [if_neg (by simp), if_neg (by simpa using hth)]
      · simp [Nat.add_assoc]

/-! ### Claim theorems -/

/-- C1: once a tracked track's accumulated playing-for reaches the
10-second threshold while its scrobbled flag is unset, the scrobble
submission is invoked exactly once over any sequence of poll ticks that
keep observing an equal playing track (one submission when the total
elapsed time crosses the threshold, none otherwise); a track whose flag is
already set never submits again on equal observations; and an observed
non-equal track replaces the tracked identity with a fresh one whose flag
is unset. -/
theorem scrobble_fires_exactly_once (t : Track) (q : List Track)
    (L : List TickInput)
    (hL : ∀ i ∈ L, ObservesEq t.artist t.track i) :
    (t.scrobbled = false →
      countSubmits (run ⟨some t, q⟩ L).2 =
        if SCROBBLE_THRESHOLD ≤ t.playing_for + totalElapsed L ∧ L ≠ []
        then 1 else 0) ∧
    (t.scrobbled = true → countSubmits (run ⟨some t, q⟩ L).2 = 0) ∧
    (∀ i m ct, i.running = true → i.status = some PlaybackStatus.Playing →
      i.metadata = some m → Track.tryFrom m = Except.ok ct →
      trackEqb t ct = false →
      tick ⟨some t, q⟩ i = (⟨some ct, q⟩, [Action.announce ct]) ∧
        ct.scrobbled = false) := by
  refine ⟨fun ht => run_submit_count_of_unscrobbled L t q ht hL,
          fun ht => run_no_submit_of_scrobbled L t q ht hL, ?_⟩
  intro i m ct hr hs hm htf hne
  constructor
  · simp [tick, hr, hs, hm, htf, hne]
  · exact tryFrom_scrobbled_false m ct htf

/-- Witness for C1: tracking `{artist := "A", track := "T"}` from
playing-for 0 through two equal playing ticks of 6 s and 5 s, exactly one
scrobble submission is issued. -/
theorem scrobble_fires_exactly_once_witness :
    countSubmits (run ⟨some ⟨['A'], ['T'], [], false, 0⟩, []⟩
      [⟨true, some PlaybackStatus.Playing,
         some ⟨some ['T'], some [['A']], none⟩, fromSecs 6, true⟩,
       ⟨true, some PlaybackStatus.Playing,
         some ⟨some ['T'], some [['A']], none⟩, fromSecs 5, true⟩]).2 = 1 := by
  have hderive : Track.tryFrom ⟨some ['T'], some [['A']], none⟩ =
      Except.ok ⟨['A'], ['T'], [], false, 0⟩ := by decide
  have hobs : ∀ i ∈ [(⟨true, some PlaybackStatus.Playing,
         some ⟨some ['T'], some [['A']], none⟩, fromSecs 6, true⟩ : TickInput),
       ⟨true, some PlaybackStatus.Playing,
         some ⟨some ['T'], some [['A']], none⟩, fromSecs 5, true⟩],
      ObservesEq (['A'] : List Char) ['T'] i := by
    intro i hi
    rcases List.mem_cons.1 hi with h | h
    · subst h
      exact ⟨rfl, rfl, _, _, rfl, hderive, rfl, rfl⟩
    rcases List.mem_cons.1 h with h2 | h2
    · subst h2
      exact ⟨rfl, rfl, _, _, rfl, hderive, rfl, rfl⟩
    exact absurd h2 (List.not_mem_nil i)
  have h := (scrobble_fires_exactly_once ⟨['A'], ['T'], [], false, 0⟩ [] _
    hobs).1 rfl
  rw [h]
  decide

/-- C2: two `Track` values are equal under the source's `PartialEq` iff
their artist and title fields are equal; the album, scrobbled and
playing-for fields have no effect on equality. -/
theorem track_equality_iff_artist_title (a b : Track) :
    (trackEqb a b = true ↔ a.artist = b.artist ∧ a.track = b.track) ∧
    (∀ al sc pf al2 sc2 pf2,
      trackEqb { a with album := al, scrobbled := sc, playing_for := pf }
        { b with album := al2, scrobbled := sc2, playing_for := pf2 } =
      trackEqb a b) := by
  constructor
  · simp [trackEqb, and_comm]
  · intro al sc pf al2 sc2 pf2
    rfl

/-- C3: with an absent artist list, derivation splits the title at the
first `" - "` occurrence: the left side (with a leading `"▶ "` glyph
stripped if present) becomes the artist and the right side the title; a
title with no `" - "` occurrence fails with
`MissingMetadata("artist split from title")`; an absent title fails with
`MissingMetadata("title")`. -/
theorem derivation_fallback_splits_title
    (m : Metadata) (s x y : List Char) (hart : m.artists = none) :
    (m.title = none →
      Track.tryFrom m = Except.error (Error.MissingMetadata "title")) ∧
    (m.title = some s → s = x ++ (sepDash ++ y) →
      (∀ n, n < x.length → listStartsWith (s.drop n) sepDash = false) →
      Track.tryFrom m = Except.ok
        { artist := glyphStrip x, track := y,
          album := m.album_name.getD [], scrobbled := false,
          playing_for := 0 }) ∧
    (m.title = some s →
      (∀ n, n < s.length → listStartsWith (s.drop n) sepDash = false) →
      Track.tryFrom m =
        Except.error (Error.MissingMetadata "artist split from title")) := by
  refine ⟨?_, ?_, ?_⟩
  · intro ht
    simp [Track.tryFrom, ht]
  · intro ht hdec hfirst
    subst hdec
    have hsplit := splitFirst_of_first_occurrence sepDash (by decide) x y hfirst
    simp [Track.tryFrom, ht, hart, hsplit]
  · intro ht hnone
    have hsplit := splitFirst_eq_none_of_no_occurrence sepDash s hnone
    simp [Track.tryFrom, ht, hart, hsplit]

/-- Witness for C3 at concrete inputs: the Plex-prefixed title
`"▶ B - S"` with no artist derives `{artist := "B", track := "S"}`; a
separator-free title and an absent title fail with the respective
`MissingMetadata` errors. -/
theorem derivation_fallback_splits_title_witness :
    Track.tryFrom ⟨some "▶ B - S".data, none, some "L".data⟩ =
      Except.ok ⟨"B".data, "S".data, "L".data, false, 0⟩ ∧
    Track.tryFrom ⟨some "NoSep".data, none, none⟩ =
      Except.error (Error.MissingMetadata "artist split from title") ∧
    Track.tryFrom ⟨none, none, none⟩ =
      Except.error (Error.MissingMetadata "title") := by
  refine ⟨?_, ?_, ?_⟩
  · have h := (derivation_fallback_splits_title
      ⟨some "▶ B - S".data, none, some "L".data⟩
      "▶ B - S".data "▶ B".data "S".data rfl).2.1 rfl (by decide) (by decide)
    exact h
  · exact (derivation_fallback_splits_title
      ⟨some "NoSep".data, none, none⟩
      "NoSep".data [] [] rfl).2.2 rfl (by decide)
  · exact (derivation_fallback_splits_title
      ⟨none, none, none⟩ [] [] [] rfl).1 rfl

/-- C4: a flush attempt on a non-empty queue leaves the queue unchanged
when the remote call fails, and empties it when the remote call
succeeds. -/
theorem flush_atomicity (q : List Track) (h : q ≠ []) :
    (push_queued_scrobbles q false).1 = q ∧
    (push_queued_scrobbles q true).1 = [] := by
  rcases q with _ | ⟨a, as⟩
  · cases h rfl
  · rcases as with _ | ⟨b, bs⟩
    · simp [push_queued_scrobbles]
    · simp [push_queued_scrobbles]

/-- Witness for C4 on the one-entry queue. -/
theorem flush_atomicity_witness :
    (push_queued_scrobbles [⟨['A'], ['T'], [], false, 0⟩] false).1 =
      [⟨['A'], ['T'], [], false, 0⟩] ∧
    (push_queued_scrobbles [⟨['A'], ['T'], [], false, 0⟩] true).1 = [] :=
  flush_atomicity _ (by decide)

/-- C5: a flush of a queue with exactly one entry issues a single
submission call for that entry; a flush of a queue with two or more
entries issues exactly one batch call containing all entries in queue
order. -/
theorem flush_batching (q : List Track) (ok : Bool) (t : Track) :
    (q = [t] → (push_queued_scrobbles q ok).2 = [Action.submit t]) ∧
    (2 ≤ q.length → (push_queued_scrobbles q ok).2 =
      [Action.submitBatch q]) := by
  constructor
  · rintro rfl
    cases ok <;> simp [push_queued_scrobbles]
  · intro h2
    rcases q with _ | ⟨a, as⟩
    · exact absurd h2 (by simp)
    · rcases as with _ | ⟨b, bs⟩
      · exact absurd h2 (by simp)
      · cases ok <;> simp [push_queued_scrobbles]

/-- Witness for C5: a single-entry queue gets a single submit call, a
two-entry queue gets one batch call with both entries in order. -/
theorem flush_batching_witness :
    (push_queued_scrobbles [⟨['A'], ['T'], [], false, 0⟩] true).2 =
      [Action.submit ⟨['A'], ['T'], [], false, 0⟩] ∧
    (push_queued_scrobbles
        [⟨['A'], ['T'], [], false, 0⟩, ⟨['B'], ['U'], [], false, 0⟩]
        false).2 =
      [Action.submitBatch
        [⟨['A'], ['T'], [], false, 0⟩, ⟨['B'], ['U'], [], false, 0⟩]] :=
  ⟨(flush_batching _ true ⟨['A'], ['T'], [], false, 0⟩).1 rfl,
   (flush_batching _ false ⟨['A'], ['T'], [], false, 0⟩).2 (by decide)⟩

/-- Counterexample to C6: a tick observing `Paused` does NOT clear the
tracked state — the tune is kept as is, contradicting the claimed
transition to Idle on every non-playing status. -/
theorem non_playing_clears_tune_counterexample :
    (tick ⟨some ⟨['A'], ['T'], [], false, fromSecs 5⟩, []⟩
       ⟨true, some PlaybackStatus.Paused, none, fromSecs 1, true⟩).1.tune =
      some ⟨['A'], ['T'], [], false, fromSecs 5⟩ ∧
    some (⟨['A'], ['T'], [], false, fromSecs 5⟩ : Track) ≠ none := by
  decide

/-- C6 as amended: on a `Paused` tick or a failed status query the tick is
skipped with the tracked state left unchanged, while only a `Stopped` tick
clears the tracked state; metadata extraction is skipped (no calls, queue
untouched) in all three cases. -/
theorem non_playing_status_handling (s : LoopState) (i : TickInput)
    (hr : i.running = true) :
    ((i.status = some PlaybackStatus.Paused ∨ i.status = none) →
      tick s i = (s, [])) ∧
    (i.status = some PlaybackStatus.Stopped →
      tick s i = (⟨none, s.queue⟩, [])) := by
  constructor
  · rintro (h | h) <;> simp [tick, h, hr]
  · intro h
    simp [tick, h]

/-- Witness for C6 (amended) on a concrete `Paused` tick. -/
theorem non_playing_status_handling_witness :
    tick ⟨some ⟨['A'], ['T'], [], false, 0⟩, []⟩
      ⟨true, some PlaybackStatus.Paused, none, fromSecs 1, true⟩ =
    (⟨some ⟨['A'], ['T'], [], false, 0⟩, []⟩, []) :=
  (non_playing_status_handling _ _ rfl).1 (Or.inl rfl)

/-- C7: a tick observing `Stopped` always resets the tracked state to
Idle, discarding any accumulated playing-for, and issues no calls. -/
theorem stopped_resets_tracked_state (s : LoopState) (i : TickInput)
    (h : i.status = some PlaybackStatus.Stopped) :
    tick s i = (⟨none, s.queue⟩, []) := by
  simp [tick, h]

/-- Witness for C7: an hour of accumulated playing-for is discarded. -/
theorem stopped_resets_tracked_state_witness :
    tick ⟨some ⟨['A'], ['T'], [], false, fromSecs 3600⟩, []⟩
      ⟨true, some PlaybackStatus.Stopped, none, fromSecs 1, true⟩ =
    (⟨none, []⟩, []) :=
  stopped_resets_tracked_state _ _ rfl

/-- C8: the immediate scrobble submission appends the submitted track to
the retry queue when the remote call fails and leaves the queue unchanged
when it succeeds; in both cases exactly one submission call is made (the
failure is not fatal and the track is not retried synchronously). -/
theorem scrobble_failure_enqueues (q : List Track) (t : Track) :
    scrobble q t false = (q ++ [t], [Action.submit t]) ∧
    scrobble q t true = (q, [Action.submit t]) :=
  ⟨rfl, rfl⟩

/-- C9: when `Track` derivation from the collected metadata fails, the
tick is skipped and the loop state (tracked track and queue) is left
exactly unchanged, with no remote calls. -/
theorem derivation_failure_keeps_state (s : LoopState) (i : TickInput)
    (m : Metadata) (e : Error)
    (hr : i.running = true) (hs : i.status = some PlaybackStatus.Playing)
    (hm : i.metadata = some m) (hf : Track.tryFrom m = Except.error e) :
    tick s i = (s, []) := by
  simp [tick, hr, hs, hm, hf]

/-- Witness for C9: a separator-free title with no artist fails derivation
and the previously tracked track survives untouched. -/
theorem derivation_failure_keeps_state_witness :
    tick ⟨some ⟨['A'], ['T'], [], true, fromSecs 42⟩, []⟩
      ⟨true, some PlaybackStatus.Playing,
        some ⟨some "NoSep".data, none, none⟩, fromSecs 1, true⟩ =
    (⟨some ⟨['A'], ['T'], [], true, fromSecs 42⟩, []⟩, []) :=
  derivation_failure_keeps_state _ _ ⟨some "NoSep".data, none, none⟩
    (Error.MissingMetadata "artist split from title") rfl rfl rfl (by decide)

/-- Counterexample to C10: a present artist list of two empty strings
joins to `", "`, which is non-empty, so derivation does NOT behave as if
the artist were absent — the artist becomes `", "` verbatim instead of
being split from the title. -/
theorem artist_join_fallback_counterexample :
    Track.tryFrom ⟨some "A - B".data, some [[], []], none⟩ ≠
      Track.tryFrom ⟨some "A - B".data, none, none⟩ ∧
    Track.tryFrom ⟨some "A - B".data, some [[], []], none⟩ =
      Except.ok ⟨[',', ' '], "A - B".data, [], false, 0⟩ := by
  decide

/-- C10 as amended: when the artist list is present but its `", "` join is
the empty string (the list is empty or is a single empty string),
derivation behaves exactly as if the artist field were absent; when the
join is non-empty it becomes the derived artist verbatim (a list of two or
more empty strings joins to `", "`, which is non-empty). -/
theorem artist_join_fallback (m : Metadata) (l : List (List Char))
    (hl : m.artists = some l) :
    (joinComma l = [] →
      Track.tryFrom m = Track.tryFrom ⟨m.title, none, m.album_name⟩) ∧
    (∀ s, m.title = some s → joinComma l ≠ [] →
      Track.tryFrom m =
        Except.ok ⟨joinComma l, s, m.album_name.getD [], false, 0⟩) := by
  rcases m with ⟨title, artists, album⟩
  simp only at hl
  subst hl
  constructor
  · intro hj
    cases title with
    | none => rfl
    | some s => simp [Track.tryFrom, hj]
  · intro s hs hj
    simp only at hs
    subst hs
    simp [Track.tryFrom, hj]

/-- Witness for C10 (amended): an empty artist list defers to the title
split, and a two-artist list derives the comma-space join. -/
theorem artist_join_fallback_witness :
    Track.tryFrom ⟨some "A - B".data, some [], none⟩ =
      Track.tryFrom ⟨some "A - B".data, none, none⟩ ∧
    Track.tryFrom ⟨some ['T'], some [['A'], ['B']], none⟩ =
      Except.ok ⟨"A, B".data, ['T'], [], false, 0⟩ := by
  constructor
  · exact (artist_join_fallback ⟨some "A - B".data, some [], none⟩ [] rfl).1
      rfl
  · have h := (artist_join_fallback ⟨some ['T'], some [['A'], ['B']], none⟩
      [['A'], ['B']] rfl).2 ['T'] rfl (by decide)
    exact h

end Dobble
